import Mathlib

/-!
Verification of the `comfforts/geocode` library (a Go wrapper around a
remote geocoding provider with an optional expiring disk cache).

The development shallowly embeds the functions of `geocode.go` and
`models.go`.  Go strings that flow through the cache-key normalizer are
modelled at the byte level (`List Nat`, one entry per byte, each < 256),
which is exactly how Go's `strings`/`net/url` packages operate on them;
the theorems about the normalizer restrict to ASCII inputs, where the
byte model and the rune-level `strings.ToLower` agree.  Machine floats
(`float64`) are modelled as rationals; the external Vincenty distance
routine, the Google Maps client, the `comfforts/cache` service and the
cloud-storage backend are external collaborators and are passed in as
explicit parameters, so every theorem quantifies over their behaviour.
-/

namespace Geocode

/-! ### Cache-key normalizer: `geoCodeService.buildKey` (geocode.go:570-575)

`buildKey` strips all spaces, lowercases, then applies Go's
`url.QueryEscape`.  `QueryEscape` keeps ASCII alphanumerics and
`-`, `_`, `.`, `~` unchanged, turns a space into `+`, and renders any
other byte as `%XX` with uppercase hexadecimal digits. -/

/-- Byte left unchanged by Go's `url.QueryEscape` (alphanumerics and
`-`, `.`, `_`, `~`). -/
def isUnreservedByte (b : Nat) : Bool :=
  (65 ≤ b && b ≤ 90) || (97 ≤ b && b ≤ 122) || (48 ≤ b && b ≤ 57) ||
    b == 45 || b == 46 || b == 95 || b == 126

/-- Uppercase hexadecimal digit, as Go's `url` package emits (`"0123456789ABCDEF"`). -/
def upperHexDigit (n : Nat) : Nat :=
  if n < 10 then 48 + n else 55 + n

/-- Escape of one byte under Go's `url.QueryEscape`. -/
def escapeByte (b : Nat) : List Nat :=
  if isUnreservedByte b then [b]
  else if b == 32 then [43]
  else [37, upperHexDigit (b / 16 % 16), upperHexDigit (b % 16)]

/-- Go `url.QueryEscape` over a byte string. -/
def queryEscapeBytes (l : List Nat) : List Nat :=
  l.flatMap escapeByte

/-- ASCII lowercasing of one byte; agrees with Go `strings.ToLower` on ASCII. -/
def toLowerByte (b : Nat) : Nat :=
  if 65 ≤ b && b ≤ 90 then b + 32 else b

/-- `geoCodeService.buildKey` (geocode.go:570-575): remove every space
(`strings.ReplaceAll(key, " ", "")`), lowercase, `url.QueryEscape`. -/
def buildKeyBytes (l : List Nat) : List Nat :=
  queryEscapeBytes ((l.filter (fun b => b != 32)).map toLowerByte)

/-- `buildKey` lifted to Lean strings via their code points (faithful for
ASCII strings, where each character is one byte). -/
def buildKeyStr (s : String) : String :=
  String.mk ((buildKeyBytes (s.data.map Char.toNat)).map Char.ofNat)

/-- Input bytes for which one normalizer pass escapes nothing:
unreserved bytes and the space (which the first step removes). -/
def keyInputByte (b : Nat) : Bool :=
  isUnreservedByte b || b == 32

theorem escapeByte_unreserved {b : Nat} (h : isUnreservedByte b = true) :
    escapeByte b = [b] := by
  simp [escapeByte, h]

theorem toLowerByte_props {b : Nat} (h : keyInputByte b = true) (h32 : b ≠ 32) :
    isUnreservedByte (toLowerByte b) = true ∧
      toLowerByte (toLowerByte b) = toLowerByte b ∧ toLowerByte b ≠ 32 := by
  simp only [keyInputByte, isUnreservedByte, Bool.or_eq_true,
    Bool.and_eq_true, decide_eq_true_eq, beq_iff_eq] at h
  unfold toLowerByte isUnreservedByte
  split_ifs <;> simp_all <;> omega

theorem flatMap_escapeByte_eq_self {l : List Nat}
    (h : ∀ b ∈ l, isUnreservedByte b = true) : l.flatMap escapeByte = l := by
  induction l with
  | nil => rfl
  | cons b t ih =>
    simp only [List.flatMap_cons]
    rw [escapeByte_unreserved (h b (List.mem_cons_self b t)),
      ih (fun x hx => h x (List.mem_cons_of_mem b hx))]
    rfl

theorem map_eq_self_of_fixed {f : Nat → Nat} {l : List Nat}
    (h : ∀ b ∈ l, f b = b) : l.map f = l := by
  induction l with
  | nil => rfl
  | cons b t ih =>
    simp only [List.map_cons]
    rw [h b (List.mem_cons_self b t), ih (fun x hx => h x (List.mem_cons_of_mem b hx))]

theorem buildKeyBytes_normal {l : List Nat} (h : ∀ b ∈ l, keyInputByte b = true) :
    buildKeyBytes l = (l.filter (fun b => b != 32)).map toLowerByte := by
  unfold buildKeyBytes queryEscapeBytes
  apply flatMap_escapeByte_eq_self
  intro b hb
  rcases List.mem_map.mp hb with ⟨c, hc, hcb⟩
  have hcl := List.mem_filter.mp hc
  have hne : c ≠ 32 := by
    have := hcl.2
    simpa [bne_iff_ne] using this
  exact hcb ▸ (toLowerByte_props (h c hcl.1) hne).1

theorem buildKeyBytes_mem {l : List Nat} (h : ∀ b ∈ l, keyInputByte b = true) :
    ∀ b ∈ buildKeyBytes l,
      isUnreservedByte b = true ∧ toLowerByte b = b ∧ b ≠ 32 := by
  intro b hb
  rw [buildKeyBytes_normal h] at hb
  rcases List.mem_map.mp hb with ⟨c, hc, hcb⟩
  have hcl := List.mem_filter.mp hc
  have hne : c ≠ 32 := by
    have := hcl.2
    simpa [bne_iff_ne] using this
  have hp := toLowerByte_props (h c hcl.1) hne
  exact hcb ▸ ⟨hp.1, hp.2.1, hp.2.2⟩

/-- C3 (counterexample): the claim "for every string x,
`buildKey(buildKey(x)) == buildKey(x)`" fails.  On the one-byte string
`"!"` (byte 33) the first pass yields `"%21"`; the second pass escapes
the `%` again, giving `"%2521"`. -/
theorem buildKey_not_idempotent_bang :
    buildKeyBytes (buildKeyBytes [33]) ≠ buildKeyBytes [33] ∧
      buildKeyBytes [33] = [37, 50, 49] ∧
      buildKeyBytes (buildKeyBytes [33]) = [37, 50, 53, 50, 49] ∧
      buildKeyStr (buildKeyStr "!") ≠ buildKeyStr "!" ∧
      buildKeyStr "!" = "%21" ∧ buildKeyStr (buildKeyStr "!") = "%2521" := by
  refine ⟨by decide, by decide, by decide, ?_, rfl, rfl⟩
  decide

/-- C3 (amended): `buildKey` is idempotent on every byte string whose
bytes survive one normalizer pass unescaped, i.e. strings made of ASCII
letters, digits, spaces and `-`, `.`, `_`, `~`; the counterexample above
shows idempotence fails as soon as a byte needs percent-escaping. -/
theorem buildKey_idempotent_on_key_inputs (l : List Nat)
    (h : ∀ b ∈ l, keyInputByte b = true) :
    buildKeyBytes (buildKeyBytes l) = buildKeyBytes l := by
  have hmem := buildKeyBytes_mem h
  have hkey : ∀ b ∈ buildKeyBytes l, keyInputByte b = true := by
    intro b hb
    simp [keyInputByte, (hmem b hb).1]
  rw [buildKeyBytes_normal hkey]
  have hfil : (buildKeyBytes l).filter (fun b => b != 32) = buildKeyBytes l := by
    rw [List.filter_eq_self]
    intro b hb
    simpa [bne_iff_ne] using (hmem b hb).2.2
  rw [hfil]
  exact map_eq_self_of_fixed (fun b hb => (hmem b hb).2.1)

/-- Witness for the amended C3 theorem at the concrete byte string
`"Ab c-9"` = `[65, 98, 32, 99, 45, 57]`. -/
theorem buildKey_idempotent_on_key_inputs_witness :
    (∀ b ∈ [65, 98, 32, 99, 45, 57], keyInputByte b = true) ∧
      buildKeyBytes (buildKeyBytes [65, 98, 32, 99, 45, 57]) =
        buildKeyBytes [65, 98, 32, 99, 45, 57] :=
  ⟨by decide, buildKey_idempotent_on_key_inputs [65, 98, 32, 99, 45, 57] (by decide)⟩

/-! ### Data model (models.go) -/

/-- `Point` (models.go:57-61); `float64` coordinates modelled as rationals. -/
structure Point where
  Latitude : ℚ
  Longitude : ℚ
  FormattedAddress : String
deriving DecidableEq

/-- `Point.IsValid` (models.go:63-65): both coordinates non-zero. -/
def Point.IsValid (p : Point) : Bool :=
  decide (p.Latitude ≠ 0) && decide (p.Longitude ≠ 0)

/-- `RouteLeg` (models.go:76-81); `time.Duration` is an `int64`
nanosecond count, modelled as an integer. -/
structure RouteLeg where
  Start : String
  End : String
  Duration : Int
  Distance : Int
deriving DecidableEq

/-- `AddressQuery` (models.go:83-89). -/
structure AddressQuery where
  Street : String
  City : String
  PostalCode : String
  State : String
  Country : String
deriving DecidableEq

/-- `AddressQuery.addressString` (models.go:91-125): sequentially append
the non-empty fields in order Street, City, State, PostalCode, Country,
separating with a single space (`fmt.Sprintf("%s %s", compStr, f)`). -/
def AddressQuery.addressString (a : AddressQuery) : String :=
  let compStr := ""
  let compStr := if a.Street ≠ "" then a.Street else compStr
  let compStr := if a.City ≠ "" then
    (if compStr = "" then a.City else compStr ++ " " ++ a.City) else compStr
  let compStr := if a.State ≠ "" then
    (if compStr = "" then a.State else compStr ++ " " ++ a.State) else compStr
  let compStr := if a.PostalCode ≠ "" then
    (if compStr = "" then a.PostalCode else compStr ++ " " ++ a.PostalCode) else compStr
  let compStr := if a.Country ≠ "" then
    (if compStr = "" then a.Country else compStr ++ " " ++ a.Country) else compStr
  compStr

/-- Spec-side description of the composed address: the non-empty fields,
in the fixed order street, city, state, postal code, country, joined by
single spaces. -/
def joinSpace : List String → String
  | [] => ""
  | [x] => x
  | x :: y :: t => x ++ " " ++ joinSpace (y :: t)

/-- Spec-side composed address (from the spec's words, for comparison
with `AddressQuery.addressString`). -/
def addressStringSpec (a : AddressQuery) : String :=
  joinSpace (([a.Street, a.City, a.State, a.PostalCode, a.Country]).filter (· ≠ ""))

theorem append_space_ne_empty (s t : String) : s ++ " " ++ t ≠ "" := by
  intro h
  have hl := congrArg String.length h
  rw [String.length_append, String.length_append] at hl
  have h1 : (" " : String).length = 1 := rfl
  have h0 : ("" : String).length = 0 := rfl
  omega

theorem append_space_eq_empty_eq_false (s t : String) :
    (s ++ (" " ++ t) = "") = False := by
  apply eq_false
  intro h
  have hl := congrArg String.length h
  rw [String.length_append, String.length_append] at hl
  have h1 : (" " : String).length = 1 := rfl
  have h0 : ("" : String).length = 0 := rfl
  omega

/-- C7: for every `AddressQuery`, the composed address string equals the
non-empty fields joined by single spaces in the order street, city,
state, postal code, country; and the composition is a function of the
five fields alone. -/
theorem addressString_eq_spec (a : AddressQuery) :
    a.addressString = addressStringSpec a ∧
      ∀ b : AddressQuery, a.Street = b.Street → a.City = b.City →
        a.State = b.State → a.PostalCode = b.PostalCode →
        a.Country = b.Country → a.addressString = b.addressString := by
  constructor
  · rcases a with ⟨st, ci, po, sta, co⟩
    simp only [AddressQuery.addressString, addressStringSpec]
    by_cases h1 : st = "" <;> by_cases h2 : ci = "" <;> by_cases h3 : sta = "" <;>
      by_cases h4 : po = "" <;> by_cases h5 : co = "" <;>
      simp [h1, h2, h3, h4, h5, joinSpace, append_space_eq_empty_eq_false,
        String.append_assoc]
  · intro b hb1 hb2 hb3 hb4 hb5
    rcases a with ⟨st, ci, po, sta, co⟩
    rcases b with ⟨st', ci', po', sta', co'⟩
    simp only at hb1 hb2 hb3 hb4 hb5
    subst hb1; subst hb2; subst hb3; subst hb4; subst hb5
    rfl

/-- Witness for C7 at a concrete query, exercising both the spec
equality and the determinism conjunct. -/
theorem addressString_eq_spec_witness :
    (⟨"1 Main St", "Irvine", "92612", "CA", ""⟩ : AddressQuery).addressString =
        addressStringSpec ⟨"1 Main St", "Irvine", "92612", "CA", ""⟩ ∧
      (⟨"1 Main St", "Irvine", "92612", "CA", ""⟩ : AddressQuery).addressString =
        (⟨"1 Main St", "Irvine", "92612", "CA", ""⟩ : AddressQuery).addressString ∧
      (⟨"1 Main St", "Irvine", "92612", "CA", ""⟩ : AddressQuery).addressString =
        "1 Main St Irvine CA 92612" :=
  ⟨(addressString_eq_spec ⟨"1 Main St", "Irvine", "92612", "CA", ""⟩).1,
    (addressString_eq_spec ⟨"1 Main St", "Irvine", "92612", "CA", ""⟩).2
      ⟨"1 Main St", "Irvine", "92612", "CA", ""⟩ rfl rfl rfl rfl rfl,
    by decide⟩

/-! ### Facade state and collaborators (geocode.go)

The Google Maps client, the `comfforts/cache` service, the Vincenty
routine and the cloud-storage backend are external dependencies; they
appear as explicit parameters, so theorems quantify over all of their
behaviours.  Go's `nil` context is `Option Unit` (`none` = nil);
`time.Time`/`time.Duration` are integer Unix seconds / nanoseconds. -/

/-- Error values of the facade (constants.go of the repository). -/
inductive GeoErr where
  | nilContext
  | geoCodePostalCode
  | geoCodeAddress
  | geoCodeNoResults
  | invalidGeoLatLng
  | invalidGeoUnit
deriving DecidableEq

deriving instance DecidableEq for Except

/-- A value stored in the cache: either one that coerces back into a
`Point`, or any other shape (the `val.(Point)` type assertion fails). -/
inductive CacheVal where
  | point (p : Point)
  | other
deriving DecidableEq

/-- Behaviour of the external `cache.CacheService` as used by the
facade: `Get`, `Set`, `Updated`, `SaveFile`. -/
structure CacheService where
  get : String → Except String (CacheVal × Int)
  set : String → Point → Int → Except String Unit
  updated : Bool
  saveFile : Except String Unit

/-- The three failure shapes of `geoCodeService.getFromCache`
(geocode.go:411-426): wrapped `cache.Get` error, expired entry,
value that is not a `Point`. -/
inductive CacheGetErr where
  | getFailed (msg : String)
  | expired
  | notPoint
deriving DecidableEq

/-- `geoCodeService.getFromCache` (geocode.go:411-426). -/
def getFromCache (cache : CacheService) (now : Int) (key : String) :
    Except CacheGetErr (Point × Int) :=
  let key := buildKeyStr key
  match cache.get key with
  | .error e => .error (.getFailed e)
  | .ok (val, exp) =>
    if exp ≤ now then .error .expired
    else
      match val with
      | .point p => .ok (p, exp)
      | .other => .error .notPoint

/-- `OneYear` (constants.go): `365 * 24 * 30 * time.Hour` in nanoseconds. -/
def OneYear : Int := 365 * 24 * 30 * 3600 * 1000000000

/-- `geoCodeService.setInCache` (geocode.go:428-443). -/
def setInCache (cache : CacheService) (key : String) (point : Point)
    (cacheFor : Int) : Except String Unit :=
  let cacheFor := if cacheFor = 0 then OneYear else cacheFor
  cache.set (buildKeyStr key) point cacheFor

/-- One result of the provider's geocode response
(`maps.GeocodingResult`: geometry location and formatted address). -/
structure GeoResult where
  Lat : ℚ
  Lng : ℚ
  FormattedAddress : String
deriving DecidableEq

/-- The `Point` the facade builds from a provider result
(geocode.go:146-151 and the identical blocks in the other operations). -/
def resultPoint (r : GeoResult) : Point :=
  ⟨r.Lat, r.Lng, r.FormattedAddress⟩

/-- A components-based geocoding request (postal code + country). -/
structure ComponentsRequest where
  PostalCode : String
  Country : String
deriving DecidableEq

/-- Result of one facade geocode operation together with whether the
remote provider was called. -/
structure GeoOutcome where
  result : Except GeoErr Point
  providerCalled : Bool
deriving DecidableEq

/-- Provider branch of `Geocode` (geocode.go:129-159): call the client,
map a client error to `ErrGeoCodePostalCode`, an empty response to
`ErrGeoCodeNoResults`, else take the first result; when caching is on,
try to cache it, ignoring any `setInCache` error (it is only logged). -/
def geocodePostalProvider (cached : Bool) (cache : CacheService)
    (client : ComponentsRequest → Except String (List GeoResult))
    (postalCode countryCode : String) : GeoOutcome :=
  match client ⟨postalCode, countryCode⟩ with
  | .error _ => ⟨.error .geoCodePostalCode, true⟩
  | .ok [] => ⟨.error .geoCodeNoResults, true⟩
  | .ok (r :: _) =>
    let pt := resultPoint r
    let _ := if cached then setInCache cache postalCode pt 0 else .ok ()
    ⟨.ok pt, true⟩

/-- `geoCodeService.Geocode` (geocode.go:109-159): nil-context check,
default the country code to `"USA"`, consult the cache when enabled
(any cache error falls through to the provider), else call the provider. -/
def Geocode (cached : Bool) (cache : CacheService) (now : Int)
    (client : ComponentsRequest → Except String (List GeoResult))
    (ctx : Option Unit) (postalCode countryCode : String) : GeoOutcome :=
  match ctx with
  | none => ⟨.error .nilContext, false⟩
  | some _ =>
    let countryCode := if countryCode = "" then "USA" else countryCode
    if cached then
      match getFromCache cache now postalCode with
      | .ok (p, _) => ⟨.ok p, false⟩
      | .error _ => geocodePostalProvider cached cache client postalCode countryCode
    else geocodePostalProvider cached cache client postalCode countryCode

/-- Outcome of `GeocodeAddress`, which mutates its `*AddressQuery`
argument: the final value of the pointed-to query is returned. -/
structure AddrOutcome where
  result : Except GeoErr Point
  addr : AddressQuery
  providerCalled : Bool
deriving DecidableEq

/-- Provider branch of `GeocodeAddress` (geocode.go:284-314). -/
def geocodeAddressProvider (cached : Bool) (cache : CacheService)
    (client : String → Except String (List GeoResult))
    (addr : AddressQuery) : Except GeoErr Point × Bool :=
  match client addr.addressString with
  | .error _ => (.error .geoCodeAddress, true)
  | .ok [] => (.error .geoCodeNoResults, true)
  | .ok (r :: _) =>
    let pt := resultPoint r
    let _ := if cached then setInCache cache addr.addressString pt 0 else .ok ()
    (.ok pt, true)

/-- `geoCodeService.GeocodeAddress` (geocode.go:255-315): nil-context
check, then `if addr.Country == "" { addr.Country = "USA" }` on the
caller's query, then cache-or-provider keyed by the composed address. -/
def GeocodeAddress (cached : Bool) (cache : CacheService) (now : Int)
    (client : String → Except String (List GeoResult))
    (ctx : Option Unit) (addr : AddressQuery) : AddrOutcome :=
  match ctx with
  | none => ⟨.error .nilContext, addr, false⟩
  | some _ =>
    let addr := if addr.Country = "" then { addr with Country := "USA" } else addr
    if cached then
      match getFromCache cache now addr.addressString with
      | .ok (p, _) => ⟨.ok p, addr, false⟩
      | .error _ =>
        let r := geocodeAddressProvider cached cache client addr
        ⟨r.1, addr, r.2⟩
    else
      let r := geocodeAddressProvider cached cache client addr
      ⟨r.1, addr, r.2⟩

/-- Go `strings.ReplaceAll` for a single-character pattern. -/
def replaceAllChar (s : String) (c : Char) (r : String) : String :=
  String.mk (s.data.flatMap (fun ch => if ch = c then r.data else [ch]))

/-- `geoCodeService.buildLatLngKey` (geocode.go:577-585).  The `%.6f`
float formatting is the external `fmt` routine, abstracted as `fmtQ`. -/
def buildLatLngKey (fmtQ : ℚ → String) (lat lng : ℚ) : String :=
  if lat = 0 ∨ lng = 0 then "lat0lng0"
  else
    let key := "lat" ++ fmtQ lat ++ "lng" ++ fmtQ lng
    let key := replaceAllChar key '.' "dot"
    let key := replaceAllChar key '-' "min"
    key

/-- Provider branch of `GeocodeLatLong` (geocode.go:333-365): reverse
geocode by lat/lng, always build the point from the FIRST result
(`r := resp[0]`); the `hint` argument plays no part. -/
def geocodeLatLngProvider (cached : Bool) (cache : CacheService)
    (fmtQ : ℚ → String) (client : ℚ × ℚ → Except String (List GeoResult))
    (lat lng : ℚ) : GeoOutcome :=
  match client (lat, lng) with
  | .error _ => ⟨.error .geoCodeAddress, true⟩
  | .ok [] => ⟨.error .geoCodeNoResults, true⟩
  | .ok (r :: _) =>
    let pt := resultPoint r
    let _ := if cached then setInCache cache (buildLatLngKey fmtQ lat lng) pt 0
      else .ok ()
    ⟨.ok pt, true⟩

/-- `geoCodeService.GeocodeLatLong` (geocode.go:317-366). -/
def GeocodeLatLong (cached : Bool) (cache : CacheService) (now : Int)
    (fmtQ : ℚ → String) (client : ℚ × ℚ → Except String (List GeoResult))
    (ctx : Option Unit) (lat lng : ℚ) (hint : String) : GeoOutcome :=
  match ctx with
  | none => ⟨.error .nilContext, false⟩
  | some _ =>
    if cached then
      match getFromCache cache now (buildLatLngKey fmtQ lat lng) with
      | .ok (p, _) => ⟨.ok p, false⟩
      | .error _ => geocodeLatLngProvider cached cache fmtQ client lat lng
    else geocodeLatLngProvider cached cache fmtQ client lat lng

/-- `DistanceUnit` (models.go:8) is a Go string type. -/
abbrev DistanceUnit := String

/-- `KM` (models.go:11). -/
def KM : DistanceUnit := "KM"

/-- `MILES` (models.go:12). -/
def MILES : DistanceUnit := "MILES"

/-- `METERS` (models.go:13). -/
def METERS : DistanceUnit := "METERS"

/-- `FEET` (models.go:14). -/
def FEET : DistanceUnit := "FEET"

/-- Result of the external `vincenty.Inverse` routine, exposing the four
unit conversions the facade uses. -/
structure VincentyDist where
  kilometers : ℚ
  miles : ℚ
  meters : ℚ
  feet : ℚ

/-- `geoCodeService.GetDistance` (geocode.go:368-389).  Note: it never
inspects `ctx`. -/
def GetDistance (vin : ℚ × ℚ → ℚ × ℚ → VincentyDist) (ctx : Option Unit)
    (u : DistanceUnit) (source dest : Option Point) : Except GeoErr ℚ :=
  match source, dest with
  | some s, some dst =>
    if !s.IsValid || !dst.IsValid then .error .invalidGeoLatLng
    else
      let d := vin (s.Latitude, s.Longitude) (dst.Latitude, dst.Longitude)
      if u = KM then .ok d.kilometers
      else if u = MILES then .ok d.miles
      else if u = METERS then .ok d.meters
      else if u = FEET then .ok d.feet
      else .error .invalidGeoUnit
  | _, _ => .error .invalidGeoLatLng

/-- One leg of a provider directions route (`maps.Route.Legs` entries:
start address, end address, duration, distance in meters). -/
structure DirectionsLeg where
  StartAddress : String
  EndAddress : String
  Duration : Int
  Distance : Int
deriving DecidableEq

/-- A provider route: a list of legs. -/
structure MapsRoute where
  Legs : List DirectionsLeg
deriving DecidableEq

/-- A directions request (origin and destination strings). -/
structure DirectionsRequest where
  Origin : String
  Destination : String
deriving DecidableEq

/-- `geoCodeService.getRoute` (geocode.go:176-195): pass the client
error through, else flatten every route's legs, in order, into
`RouteLeg`s.  The caller's context is not consulted (the code calls the
client with `context.Background()`). -/
def getRoute (client : DirectionsRequest → Except String (List MapsRoute))
    (req : DirectionsRequest) : Except String (List RouteLeg) :=
  match client req with
  | .error e => .error e
  | .ok routes =>
    .ok (routes.flatMap (fun rt =>
      rt.Legs.map (fun l => ⟨l.StartAddress, l.EndAddress, l.Duration, l.Distance⟩)))

/-- The `fmt.Sprintf("%.6f %.6f", lat, lng)` formatting of a point,
with the float formatter abstracted as `fmtQ`. -/
def fmtLatLng (fmtQ : ℚ → String) (p : Point) : String :=
  fmtQ p.Latitude ++ " " ++ fmtQ p.Longitude

/-- `geoCodeService.GetRouteForLatLong` (geocode.go:162-167): no
nil-context check. -/
def GetRouteForLatLong (client : DirectionsRequest → Except String (List MapsRoute))
    (fmtQ : ℚ → String) (ctx : Option Unit) (origin destination : Point) :
    Except String (List RouteLeg) :=
  getRoute client ⟨fmtLatLng fmtQ origin, fmtLatLng fmtQ destination⟩

/-- `geoCodeService.GetRouteForAddress` (geocode.go:169-174): no
nil-context check. -/
def GetRouteForAddress (client : DirectionsRequest → Except String (List MapsRoute))
    (ctx : Option Unit) (origin destination : AddressQuery) :
    Except String (List RouteLeg) :=
  getRoute client ⟨origin.addressString, destination.addressString⟩

/-- One element of a provider distance-matrix row (duration and distance
in meters). -/
structure MatrixElement where
  Duration : Int
  Distance : Int
deriving DecidableEq

/-- One row of a provider distance-matrix response. -/
structure MatrixRow where
  Elements : List MatrixElement
deriving DecidableEq

/-- A provider distance-matrix response: resolved origin and destination
address strings plus the row/element grid. -/
structure MatrixResponse where
  OriginAddresses : List String
  DestinationAddresses : List String
  Rows : List MatrixRow
deriving DecidableEq

/-- A distance-matrix request (origin and destination string lists). -/
structure MatrixRequest where
  Origins : List String
  Destinations : List String
deriving DecidableEq

/-- Inner loop of `getRouteMatrix` (geocode.go:240-249): scan one row's
elements with destination index `j`, keeping the pairs whose origin and
destination address strings differ. -/
def rowLegs (origins dests : List String) (i : Nat) :
    List MatrixElement → Nat → List RouteLeg
  | [], _ => []
  | e :: rest, j =>
    if origins.getD i "" ≠ dests.getD j "" then
      ⟨origins.getD i "", dests.getD j "", e.Duration, e.Distance⟩ ::
        rowLegs origins dests i rest (j + 1)
    else rowLegs origins dests i rest (j + 1)

/-- Outer loop of `getRouteMatrix` (geocode.go:239-250): scan the rows
with origin index `i`. -/
def matrixLegs (origins dests : List String) :
    List MatrixRow → Nat → List RouteLeg
  | [], _ => []
  | row :: rest, i =>
    rowLegs origins dests i row.Elements 0 ++ matrixLegs origins dests rest (i + 1)

/-- The leg list `geoCodeService.getRouteMatrix` builds from a response
(geocode.go:238-252). -/
def getRouteMatrixLegs (resp : MatrixResponse) : List RouteLeg :=
  matrixLegs resp.OriginAddresses resp.DestinationAddresses resp.Rows 0

/-- `geoCodeService.getRouteMatrix` (geocode.go:231-253): the caller's
context is forwarded unchanged to `g.client.DistanceMatrix(ctx, req)`
(geocode.go:232) — there is no nil-context check here — then client
errors pass through and a response becomes the leg list above.  The
external client is therefore modelled as a function of the context AND
the request. -/
def getRouteMatrix
    (client : Option Unit → MatrixRequest → Except String MatrixResponse)
    (ctx : Option Unit) (req : MatrixRequest) : Except String (List RouteLeg) :=
  match client ctx req with
  | .error e => .error e
  | .ok resp => .ok (getRouteMatrixLegs resp)

/-- `geoCodeService.GetRouteMatrixForLatLong` (geocode.go:214-229): no
nil-context check; the caller's context is passed through to
`getRouteMatrix` and on to the external client. -/
def GetRouteMatrixForLatLong
    (client : Option Unit → MatrixRequest → Except String MatrixResponse)
    (fmtQ : ℚ → String) (ctx : Option Unit) (origins destinations : List Point) :
    Except String (List RouteLeg) :=
  getRouteMatrix client ctx
    ⟨origins.map (fmtLatLng fmtQ), destinations.map (fmtLatLng fmtQ)⟩

/-- `geoCodeService.GetRouteMatrixForAddress` (geocode.go:197-212): no
nil-context check; the caller's context is passed through to
`getRouteMatrix` and on to the external client. -/
def GetRouteMatrixForAddress
    (client : Option Unit → MatrixRequest → Except String MatrixResponse)
    (ctx : Option Unit) (origins destinations : List AddressQuery) :
    Except String (List RouteLeg) :=
  getRouteMatrix client ctx
    ⟨origins.map AddressQuery.addressString, destinations.map AddressQuery.addressString⟩

/-- `geoCodeService.Clear` (geocode.go:391-409), instrumented with which
steps ran: the result, whether `cache.SaveFile` was called, and whether
the upload was attempted.  The upload (`geoCodeService.uploadCache`,
pure file/cloud I/O against the storage backend) is abstracted by its
outcome `upload`. -/
def Clear (cached : Bool) (cache : CacheService) (upload : Except String Unit) :
    Except String Unit × Bool × Bool :=
  if cached then
    if cache.updated then
      match cache.saveFile with
      | .error e => (.error e, true, false)
      | .ok _ =>
        match upload with
        | .error e => (.error e, true, true)
        | .ok _ => (.ok (), true, true)
    else (.ok (), false, false)
  else (.ok (), false, false)

/-! ### Claim theorems: cache/provider interaction of `Geocode` -/

/-- Spec-side description of the provider leg of `Geocode`: the
provider's first result as a point, `ErrGeoCodePostalCode` on a client
failure, `ErrGeoCodeNoResults` on an empty response. -/
def providerPostalResult : Except String (List GeoResult) → Except GeoErr Point
  | .error _ => .error .geoCodePostalCode
  | .ok [] => .error .geoCodeNoResults
  | .ok (r :: _) => .ok (resultPoint r)

/-- C1: with caching enabled, any `getFromCache` failure (key absent,
expired, or non-coercible value) is absorbed: the result is exactly the
provider-leg result, coincides with the result of an uncached run, and
is independent of the cache's `Set` behaviour (the second cache may
fail its `Set` in any way whatsoever). -/
theorem geocode_cache_error_falls_through
    (cache cache' : CacheService) (now now' : Int)
    (client : ComponentsRequest → Except String (List GeoResult))
    (postalCode countryCode : String) (e e' : CacheGetErr)
    (hg : getFromCache cache now postalCode = .error e)
    (hg' : getFromCache cache' now' postalCode = .error e') :
    (Geocode true cache now client (some ()) postalCode countryCode).result
        = providerPostalResult
            (client ⟨postalCode, if countryCode = "" then "USA" else countryCode⟩)
      ∧ (Geocode true cache now client (some ()) postalCode countryCode).result
        = (Geocode false cache now client (some ()) postalCode countryCode).result
      ∧ (Geocode true cache now client (some ()) postalCode countryCode).result
        = (Geocode true cache' now' client (some ()) postalCode countryCode).result := by
  have hA : ∀ (cch : CacheService) (b : Bool),
      (geocodePostalProvider b cch client postalCode
          (if countryCode = "" then "USA" else countryCode)).result
        = providerPostalResult
            (client ⟨postalCode, if countryCode = "" then "USA" else countryCode⟩) := by
    intro cch b
    unfold geocodePostalProvider providerPostalResult
    cases client ⟨postalCode, if countryCode = "" then "USA" else countryCode⟩ with
    | error e => rfl
    | ok l => cases l <;> rfl
  refine ⟨?_, ?_, ?_⟩ <;> simp only [Geocode, hg, hg', if_true] <;>
    simp [hA]

/-- A cache whose `Get` always fails, used as a concrete collaborator
in closed instances. -/
def emptyCache : CacheService :=
  ⟨fun _ => .error "key not found", fun _ _ _ => .ok (), false, .ok ()⟩

/-- A client returning one fixed result for any request, used as a
concrete collaborator in closed instances. -/
def oneResultClient : ComponentsRequest → Except String (List GeoResult) :=
  fun _ => .ok [⟨33, -117, "Irvine, CA 92612, USA"⟩]

/-- Witness for C1 at concrete collaborators. -/
theorem geocode_cache_error_falls_through_witness :
    getFromCache emptyCache 0 "92612" = .error (.getFailed "key not found") ∧
      (Geocode true emptyCache 0 oneResultClient (some ()) "92612" "").result
        = providerPostalResult (oneResultClient ⟨"92612", "USA"⟩) :=
  ⟨rfl, (geocode_cache_error_falls_through emptyCache emptyCache 0 0 oneResultClient
    "92612" "" (.getFailed "key not found") (.getFailed "key not found") rfl rfl).1⟩

/-- C10: `Geocode`'s cache key is the postal code alone, so on an
unexpired cache hit the cached point is returned, the provider is not
called, and the outcome is identical for any two country codes. -/
theorem geocode_cache_hit_ignores_country
    (cache : CacheService) (now : Int)
    (client : ComponentsRequest → Except String (List GeoResult))
    (postalCode c1 c2 : String) (p : Point) (exp : Int)
    (h : getFromCache cache now postalCode = .ok (p, exp)) :
    Geocode true cache now client (some ()) postalCode c1 = ⟨.ok p, false⟩
      ∧ Geocode true cache now client (some ()) postalCode c1
        = Geocode true cache now client (some ()) postalCode c2 := by
  constructor <;> simp [Geocode, h]

/-- A cache holding an unexpired point for every key. -/
def hitCache : CacheService :=
  ⟨fun _ => .ok (.point ⟨33, -117, "Irvine, CA 92612, USA"⟩, 100),
    fun _ _ _ => .ok (), false, .ok ()⟩

/-- Witness for C10 at concrete collaborators: same cached point for
country codes `"USA"` and `""`, without a provider call. -/
theorem geocode_cache_hit_ignores_country_witness :
    getFromCache hitCache 0 "92612" = .ok (⟨33, -117, "Irvine, CA 92612, USA"⟩, 100) ∧
      Geocode true hitCache 0 oneResultClient (some ()) "92612" "USA"
        = ⟨.ok ⟨33, -117, "Irvine, CA 92612, USA"⟩, false⟩ ∧
      Geocode true hitCache 0 oneResultClient (some ()) "92612" "USA"
        = Geocode true hitCache 0 oneResultClient (some ()) "92612" "" :=
  ⟨by decide, (geocode_cache_hit_ignores_country hitCache 0 oneResultClient
      "92612" "USA" "" ⟨33, -117, "Irvine, CA 92612, USA"⟩ 100 (by decide)).1,
    (geocode_cache_hit_ignores_country hitCache 0 oneResultClient
      "92612" "USA" "" ⟨33, -117, "Irvine, CA 92612, USA"⟩ 100 (by decide)).2⟩

/-- C9: `GeocodeAddress` mutates the caller's query: past the
nil-context check the final `Country` is `"USA"` whenever it was empty
(otherwise unchanged), the other four fields are unchanged, and with a
nil context the query is untouched. -/
theorem geocodeAddress_country_mutation
    (cached : Bool) (cache : CacheService) (now : Int)
    (client : String → Except String (List GeoResult)) (addr : AddressQuery) :
    (GeocodeAddress cached cache now client (some ()) addr).addr
        = (if addr.Country = "" then { addr with Country := "USA" } else addr)
      ∧ (GeocodeAddress cached cache now client (some ()) addr).addr.Street = addr.Street
      ∧ (GeocodeAddress cached cache now client (some ()) addr).addr.City = addr.City
      ∧ (GeocodeAddress cached cache now client (some ()) addr).addr.State = addr.State
      ∧ (GeocodeAddress cached cache now client (some ()) addr).addr.PostalCode
        = addr.PostalCode
      ∧ (addr.Country = "" →
          (GeocodeAddress cached cache now client (some ()) addr).addr.Country = "USA")
      ∧ (addr.Country ≠ "" →
          (GeocodeAddress cached cache now client (some ()) addr).addr = addr)
      ∧ (GeocodeAddress cached cache now client none addr).addr = addr := by
  have hbase : (GeocodeAddress cached cache now client (some ()) addr).addr
      = (if addr.Country = "" then { addr with Country := "USA" } else addr) := by
    unfold GeocodeAddress
    cases cached <;> by_cases hc : addr.Country = "" <;>
      simp only [hc, if_true, if_false, Bool.false_eq_true, ite_true, ite_false] <;>
      first
        | rfl
        | (rcases getFromCache cache now _ with _ | ⟨_, _⟩ <;> rfl)
  refine ⟨hbase, ?_, ?_, ?_, ?_, ?_, ?_, rfl⟩ <;>
    rw [hbase] <;> by_cases hc : addr.Country = "" <;> simp [hc]

/-- Witness for C9's conditional conjuncts at a concrete query with
empty country. -/
theorem geocodeAddress_country_mutation_witness :
    ("" : String) = "" ∧
      (GeocodeAddress false emptyCache 0 (fun _ => .error "network")
          (some ()) ⟨"1 Main St", "Irvine", "92612", "CA", ""⟩).addr.Country = "USA" :=
  ⟨rfl, (geocodeAddress_country_mutation false emptyCache 0 (fun _ => .error "network")
      ⟨"1 Main St", "Irvine", "92612", "CA", ""⟩).2.2.2.2.2.1 rfl⟩

/-- C2: `Clear` saves and uploads only when caching is enabled and the
store is dirty; `SaveFile` runs first and its failure skips the upload
and is returned; otherwise the upload's outcome is returned; when
caching is off or the store is clean neither step runs and the result
is `nil`. -/
theorem clear_upload_if_dirty
    (cached : Bool) (cache : CacheService) (upload : Except String Unit) :
    (cached = true → cache.updated = true →
        Clear cached cache upload
          = (match cache.saveFile with
             | .error e => (Except.error e, true, false)
             | .ok _ => (upload, true, true)))
      ∧ (cached = false ∨ cache.updated = false →
        Clear cached cache upload = (.ok (), false, false)) := by
  constructor
  · intro h1 h2
    subst h1
    simp only [Clear, h2, if_true]
    cases cache.saveFile with
    | error e => rfl
    | ok u => cases upload with
      | error e => rfl
      | ok v => rfl
  · rintro (h | h)
    · subst h
      simp [Clear]
    · cases cached <;> simp [Clear, h]

/-- A dirty cache whose `SaveFile` fails. -/
def dirtyBrokenCache : CacheService :=
  ⟨fun _ => .error "key not found", fun _ _ _ => .ok (), true, .error "disk full"⟩

/-- Witness for C2 at a concrete dirty cache with failing save: the
save error is returned and the upload is not attempted. -/
theorem clear_upload_if_dirty_witness :
    dirtyBrokenCache.updated = true ∧
      Clear true dirtyBrokenCache (.ok ()) = (.error "disk full", true, false) :=
  ⟨rfl, (clear_upload_if_dirty true dirtyBrokenCache (.ok ())).1 rfl rfl⟩

/-! ### Claim theorems: context handling, hint handling, distances -/

/-- A fixed Vincenty outcome used as a concrete collaborator. -/
def vinDemo : ℚ × ℚ → ℚ × ℚ → VincentyDist :=
  fun _ _ => ⟨7, 8, 9, 10⟩

/-- C4 (counterexample): not every public operation nil-context-checks.
`GetDistance` with a nil context happily computes a distance instead of
failing with `ErrNilContext`; `GetRouteForLatLong` with a nil context
still calls the provider and returns its legs; and
`GetRouteMatrixForLatLong` with a nil context hands that nil context to
the external client and returns its legs instead of failing fast. -/
theorem getDistance_nil_context_not_checked :
    GetDistance vinDemo none KM (some ⟨1, 1, ""⟩) (some ⟨2, 2, ""⟩) = .ok 7
      ∧ GetDistance vinDemo none KM (some ⟨1, 1, ""⟩) (some ⟨2, 2, ""⟩)
        ≠ .error .nilContext
      ∧ GetRouteForLatLong (fun _ => .ok [⟨[⟨"a", "b", 60, 1000⟩]⟩]) (fun _ => "")
          none ⟨1, 1, ""⟩ ⟨2, 2, ""⟩ = .ok [⟨"a", "b", 60, 1000⟩]
      ∧ GetRouteMatrixForLatLong (fun _ _ => .ok ⟨[], [], []⟩) (fun _ => "")
          none [] [] = .ok [] := by
  refine ⟨by decide, by decide, rfl, rfl⟩

/-- C4 (amended): the three geocode operations fail fast with
`ErrNilContext` on a nil context (before any cache or provider
activity).  `GetDistance` never consults the context, and the two
directions operations call the provider with a background context, so
those three behave identically for any two contexts.  The two
route-matrix operations perform no nil-context check either: a nil
context is forwarded unchanged to the external distance-matrix client
and its passthrough outcome is returned, and the context influences the
outcome only through that client call. -/
theorem nil_context_policy :
    (∀ (cached : Bool) (cache : CacheService) (now : Int) client postal cc,
        Geocode cached cache now client none postal cc
          = ⟨.error .nilContext, false⟩)
      ∧ (∀ (cached : Bool) (cache : CacheService) (now : Int) client addr,
        GeocodeAddress cached cache now client none addr
          = ⟨.error .nilContext, addr, false⟩)
      ∧ (∀ (cached : Bool) (cache : CacheService) (now : Int) fmtQ client lat lng hint,
        GeocodeLatLong cached cache now fmtQ client none lat lng hint
          = ⟨.error .nilContext, false⟩)
      ∧ (∀ vin ctx ctx' u source dest,
        GetDistance vin ctx u source dest = GetDistance vin ctx' u source dest)
      ∧ (∀ client fmtQ ctx ctx' origin destination,
        GetRouteForLatLong client fmtQ ctx origin destination
          = GetRouteForLatLong client fmtQ ctx' origin destination)
      ∧ (∀ client ctx ctx' origin destination,
        GetRouteForAddress client ctx origin destination
          = GetRouteForAddress client ctx' origin destination)
      ∧ (∀ client fmtQ origins destinations,
        GetRouteMatrixForLatLong client fmtQ none origins destinations
          = (match client none ⟨origins.map (fmtLatLng fmtQ),
                destinations.map (fmtLatLng fmtQ)⟩ with
             | .error e => .error e
             | .ok resp => .ok (getRouteMatrixLegs resp)))
      ∧ (∀ client origins destinations,
        GetRouteMatrixForAddress client none origins destinations
          = (match client none ⟨origins.map AddressQuery.addressString,
                destinations.map AddressQuery.addressString⟩ with
             | .error e => .error e
             | .ok resp => .ok (getRouteMatrixLegs resp)))
      ∧ (∀ client fmtQ ctx ctx' origins destinations,
        client ctx = client ctx' →
        GetRouteMatrixForLatLong client fmtQ ctx origins destinations
          = GetRouteMatrixForLatLong client fmtQ ctx' origins destinations)
      ∧ (∀ client ctx ctx' origins destinations,
        client ctx = client ctx' →
        GetRouteMatrixForAddress client ctx origins destinations
          = GetRouteMatrixForAddress client ctx' origins destinations) := by
  refine ⟨?_, ?_, ?_, ?_, ?_, ?_, ?_, ?_, ?_, ?_⟩ <;> intros <;>
    first
      | rfl
      | (rename_i h; simp only [GetRouteMatrixForLatLong,
          GetRouteMatrixForAddress, getRouteMatrix, h])

/-- Witness for the amended C4 theorem: the matrix operations'
context-sensitivity conjuncts applied at a concrete client that ignores
its context, for a nil and a non-nil context. -/
theorem nil_context_policy_witness :
    GetRouteMatrixForLatLong (fun _ _ => .ok ⟨[], [], []⟩) (fun _ => "")
        (some ()) [] []
      = GetRouteMatrixForLatLong (fun _ _ => .ok ⟨[], [], []⟩) (fun _ => "")
        none [] [] :=
  nil_context_policy.2.2.2.2.2.2.2.2.1 (fun _ _ => .ok ⟨[], [], []⟩) (fun _ => "")
    (some ()) none [] [] rfl

/-- Go `strings.HasPrefix` at the character-list level. -/
def startsWithL : List Char → List Char → Bool
  | _, [] => true
  | [], _ :: _ => false
  | a :: as, b :: bs => (a == b) && startsWithL as bs

/-- Go `strings.Contains` at the character-list level. -/
def containsGo : List Char → List Char → Bool
  | [], needle => needle.isEmpty
  | h :: t, needle => startsWithL (h :: t) needle || containsGo t needle

/-- Go `strings.Contains(s, sub)`: case-sensitive substring test. -/
def stringContains (s sub : String) : Bool :=
  containsGo s.data sub.data

/-- A reverse-geocode client returning two results; only the second
formatted address contains the hint `"Irvine"`. -/
def twoResultLatLngClient : ℚ × ℚ → Except String (List GeoResult) :=
  fun _ => .ok [⟨1, 2, "Somewhere Else"⟩, ⟨3, 4, "Irvine CA"⟩]

/-- C5 (counterexample): with two provider results where only the
SECOND formatted address contains the caller's hint, `GeocodeLatLong`
still returns the first result — the hint plays no part in result
selection, contradicting the claimed hint-preference. -/
theorem geocodeLatLong_hint_not_preferred :
    stringContains "Irvine CA" "Irvine" = true
      ∧ stringContains "Somewhere Else" "Irvine" = false
      ∧ (GeocodeLatLong false emptyCache 0 (fun _ => "") twoResultLatLngClient
          (some ()) 5 6 "Irvine").result = .ok ⟨1, 2, "Somewhere Else"⟩
      ∧ (GeocodeLatLong false emptyCache 0 (fun _ => "") twoResultLatLngClient
          (some ()) 5 6 "Irvine").result ≠ .ok ⟨3, 4, "Irvine CA"⟩ := by
  refine ⟨by decide, by decide, by decide, by decide⟩

/-- C5 (amended): `GeocodeLatLong` ignores the hint entirely — the
outcome is identical for any two hints — and on the provider path it
always returns the point built from the FIRST provider result. -/
theorem geocodeLatLong_returns_first_result
    (cached : Bool) (cache : CacheService) (now : Int) (fmtQ : ℚ → String)
    (client : ℚ × ℚ → Except String (List GeoResult)) (ctx : Option Unit)
    (lat lng : ℚ) (hint hint' : String) (r : GeoResult) (rs : List GeoResult)
    (h : client (lat, lng) = .ok (r :: rs)) :
    GeocodeLatLong cached cache now fmtQ client ctx lat lng hint
        = GeocodeLatLong cached cache now fmtQ client ctx lat lng hint'
      ∧ (GeocodeLatLong false cache now fmtQ client (some ()) lat lng hint).result
        = .ok (resultPoint r) := by
  refine ⟨rfl, ?_⟩
  simp [GeocodeLatLong, geocodeLatLngProvider, h]

/-- Witness for the amended C5 theorem at concrete collaborators. -/
theorem geocodeLatLong_returns_first_result_witness :
    twoResultLatLngClient (5, 6) = .ok [⟨1, 2, "Somewhere Else"⟩, ⟨3, 4, "Irvine CA"⟩]
      ∧ (GeocodeLatLong false emptyCache 0 (fun _ => "") twoResultLatLngClient
          (some ()) 5 6 "a").result = .ok (resultPoint ⟨1, 2, "Somewhere Else"⟩) :=
  ⟨rfl, (geocodeLatLong_returns_first_result false emptyCache 0 (fun _ => "")
      twoResultLatLngClient (some ()) 5 6 "a" "b" ⟨1, 2, "Somewhere Else"⟩
      [⟨3, 4, "Irvine CA"⟩] rfl).2⟩

/-- C8: `GetDistance` returns `ErrInvalidGeoLatLng` exactly when an
argument point is nil (`none`) or invalid; a point is valid iff both
its coordinates are non-zero; for valid points each of the four unit
tags selects the corresponding conversion of the Vincenty result, and
any other unit tag yields `ErrInvalidGeoUnit`. -/
theorem getDistance_unit_and_validity
    (vin : ℚ × ℚ → ℚ × ℚ → VincentyDist) (ctx : Option Unit)
    (u : DistanceUnit) (source dest : Option Point) :
    (GetDistance vin ctx u source dest = .error .invalidGeoLatLng ↔
        ¬ ∃ s d, source = some s ∧ dest = some d ∧ s.IsValid = true ∧ d.IsValid = true)
      ∧ (∀ s d, source = some s → dest = some d →
          s.IsValid = true → d.IsValid = true →
          (u = KM → GetDistance vin ctx u source dest
            = .ok (vin (s.Latitude, s.Longitude) (d.Latitude, d.Longitude)).kilometers)
          ∧ (u = MILES → GetDistance vin ctx u source dest
            = .ok (vin (s.Latitude, s.Longitude) (d.Latitude, d.Longitude)).miles)
          ∧ (u = METERS → GetDistance vin ctx u source dest
            = .ok (vin (s.Latitude, s.Longitude) (d.Latitude, d.Longitude)).meters)
          ∧ (u = FEET → GetDistance vin ctx u source dest
            = .ok (vin (s.Latitude, s.Longitude) (d.Latitude, d.Longitude)).feet)
          ∧ (u ≠ KM → u ≠ MILES → u ≠ METERS → u ≠ FEET →
            GetDistance vin ctx u source dest = .error .invalidGeoUnit))
      ∧ (∀ p : Point, p.IsValid = true ↔ (p.Latitude ≠ 0 ∧ p.Longitude ≠ 0)) := by
  refine ⟨?_, ?_, ?_⟩
  · cases source with
    | none => simp [GetDistance]
    | some s =>
      cases dest with
      | none => simp [GetDistance]
      | some d =>
        by_cases hs : s.IsValid <;> by_cases hd : d.IsValid <;>
          simp [GetDistance, hs, hd] <;> split_ifs <;> simp
  · intro s d hsrc hdst hsv hdv
    subst hsrc; subst hdst
    refine ⟨?_, ?_, ?_, ?_, ?_⟩
    · intro h; subst h; simp [GetDistance, hsv, hdv]
    · intro h; subst h; simp [GetDistance, hsv, hdv, MILES, KM]
    · intro h; subst h; simp [GetDistance, hsv, hdv, METERS, KM, MILES]
    · intro h; subst h; simp [GetDistance, hsv, hdv, FEET, KM, MILES, METERS]
    · intro h1 h2 h3 h4; simp [GetDistance, hsv, hdv, h1, h2, h3, h4]
  · intro p
    simp [Point.IsValid]

/-- Witness for C8 at concrete points and units: valid points with an
unrecognized unit tag give `ErrInvalidGeoUnit`. -/
theorem getDistance_unit_and_validity_witness :
    Point.IsValid ⟨1, 1, ""⟩ = true ∧
      GetDistance vinDemo (some ()) "FURLONGS" (some ⟨1, 1, ""⟩) (some ⟨2, 2, ""⟩)
        = .error .invalidGeoUnit :=
  ⟨by decide,
    ((getDistance_unit_and_validity vinDemo (some ()) "FURLONGS"
        (some ⟨1, 1, ""⟩) (some ⟨2, 2, ""⟩)).2.1 ⟨1, 1, ""⟩ ⟨2, 2, ""⟩ rfl rfl
      (by decide) (by decide)).2.2.2.2 (by decide) (by decide) (by decide) (by decide)⟩

/-! ### Claim theorems: route matrix -/

/-- Spec-side description of the matrix legs: for each (origin i,
destination j) index pair, in row-major order, one leg exactly when the
two address strings differ, carrying the grid element's duration and
distance. -/
def routeMatrixSpec (resp : MatrixResponse) : List RouteLeg :=
  (List.range resp.OriginAddresses.length).flatMap (fun i =>
    (List.range resp.DestinationAddresses.length).filterMap (fun j =>
      if resp.OriginAddresses.getD i "" ≠ resp.DestinationAddresses.getD j "" then
        some ⟨resp.OriginAddresses.getD i "", resp.DestinationAddresses.getD j "",
          ((resp.Rows.getD i ⟨[]⟩).Elements.getD j ⟨0, 0⟩).Duration,
          ((resp.Rows.getD i ⟨[]⟩).Elements.getD j ⟨0, 0⟩).Distance⟩
      else none))

theorem rowLegs_eq_filterMap (origins dests : List String) (i : Nat)
    (elems : List MatrixElement) : ∀ j0 : Nat,
    rowLegs origins dests i elems j0
      = (List.range' j0 elems.length).filterMap (fun j =>
          if origins.getD i "" ≠ dests.getD j "" then
            some ⟨origins.getD i "", dests.getD j "",
              (elems.getD (j - j0) ⟨0, 0⟩).Duration,
              (elems.getD (j - j0) ⟨0, 0⟩).Distance⟩
          else none) := by
  induction elems with
  | nil => intro j0; rfl
  | cons e rest ih =>
    intro j0
    have hcongr : (List.range' (j0 + 1) rest.length).filterMap
        (fun j => if origins.getD i "" ≠ dests.getD j "" then
            some (⟨origins.getD i "", dests.getD j "",
              ((e :: rest).getD (j - j0) ⟨0, 0⟩).Duration,
              ((e :: rest).getD (j - j0) ⟨0, 0⟩).Distance⟩ : RouteLeg)
          else none)
        = (List.range' (j0 + 1) rest.length).filterMap
        (fun j => if origins.getD i "" ≠ dests.getD j "" then
            some (⟨origins.getD i "", dests.getD j "",
              (rest.getD (j - (j0 + 1)) ⟨0, 0⟩).Duration,
              (rest.getD (j - (j0 + 1)) ⟨0, 0⟩).Distance⟩ : RouteLeg)
          else none) := by
      apply List.filterMap_congr
      intro j hj
      have hge : j0 + 1 ≤ j := (List.mem_range'_1.mp hj).1
      have hk : j - j0 = (j - (j0 + 1)) + 1 := by omega
      rw [hk]
      rfl
    rw [List.length_cons, List.range'_succ, List.filterMap_cons]
    by_cases hc : origins.getD i "" ≠ dests.getD j0 ""
    · simp only [rowLegs, if_pos hc, Nat.sub_self, List.getD_cons_zero]
      rw [hcongr, ← ih (j0 + 1)]
    · simp only [rowLegs, if_neg hc, Nat.sub_self, List.getD_cons_zero]
      rw [hcongr, ← ih (j0 + 1)]

theorem matrixLegs_eq_flatMap (origins dests : List String) :
    ∀ (rows : List MatrixRow) (i0 : Nat),
    (∀ row ∈ rows, row.Elements.length = dests.length) →
    matrixLegs origins dests rows i0
      = (List.range' i0 rows.length).flatMap (fun i =>
          (List.range dests.length).filterMap (fun j =>
            if origins.getD i "" ≠ dests.getD j "" then
              some ⟨origins.getD i "", dests.getD j "",
                ((rows.getD (i - i0) ⟨[]⟩).Elements.getD j ⟨0, 0⟩).Duration,
                ((rows.getD (i - i0) ⟨[]⟩).Elements.getD j ⟨0, 0⟩).Distance⟩
            else none)) := by
  intro rows
  induction rows with
  | nil => intro i0 _; rfl
  | cons row rest ih =>
    intro i0 h
    have hhead : rowLegs origins dests i0 row.Elements 0
        = (List.range dests.length).filterMap (fun j =>
            if origins.getD i0 "" ≠ dests.getD j "" then
              some ⟨origins.getD i0 "", dests.getD j "",
                (row.Elements.getD j ⟨0, 0⟩).Duration,
                (row.Elements.getD j ⟨0, 0⟩).Distance⟩
            else none) := by
      rw [rowLegs_eq_filterMap, h row (List.mem_cons_self row rest),
        List.range_eq_range']
      simp
    have hcongr : (List.range' (i0 + 1) rest.length).flatMap
        (fun i => (List.range dests.length).filterMap (fun j =>
            if origins.getD i "" ≠ dests.getD j "" then
              some (⟨origins.getD i "", dests.getD j "",
                (((row :: rest).getD (i - i0) ⟨[]⟩).Elements.getD j ⟨0, 0⟩).Duration,
                (((row :: rest).getD (i - i0) ⟨[]⟩).Elements.getD j ⟨0, 0⟩).Distance⟩
                  : RouteLeg)
            else none))
        = (List.range' (i0 + 1) rest.length).flatMap
        (fun i => (List.range dests.length).filterMap (fun j =>
            if origins.getD i "" ≠ dests.getD j "" then
              some (⟨origins.getD i "", dests.getD j "",
                ((rest.getD (i - (i0 + 1)) ⟨[]⟩).Elements.getD j ⟨0, 0⟩).Duration,
                ((rest.getD (i - (i0 + 1)) ⟨[]⟩).Elements.getD j ⟨0, 0⟩).Distance⟩
                  : RouteLeg)
            else none)) := by
      apply List.flatMap_congr
      intro i hi
      have hge : i0 + 1 ≤ i := (List.mem_range'_1.mp hi).1
      have hk : i - i0 = (i - (i0 + 1)) + 1 := by omega
      rw [hk]
      rfl
    calc matrixLegs origins dests (row :: rest) i0
        = rowLegs origins dests i0 row.Elements 0
            ++ matrixLegs origins dests rest (i0 + 1) := rfl
      _ = _ := by
          rw [hhead, ih (i0 + 1) (fun r hr => h r (List.mem_cons_of_mem row hr)),
            List.length_cons, List.range'_succ, List.flatMap_cons, ← hcongr,
            Nat.sub_self, List.getD_cons_zero]

/-- C6: for a well-formed distance-matrix response (one row per origin
address, one element per destination address), `getRouteMatrix` yields,
in row-major order, exactly one leg per (origin i, destination j) index
pair whose address strings differ — carrying that element's duration
and distance — and no leg for identical pairs. -/
theorem getRouteMatrixLegs_eq_spec (resp : MatrixResponse)
    (h1 : resp.Rows.length = resp.OriginAddresses.length)
    (h2 : ∀ row ∈ resp.Rows,
      row.Elements.length = resp.DestinationAddresses.length) :
    getRouteMatrixLegs resp = routeMatrixSpec resp := by
  unfold getRouteMatrixLegs routeMatrixSpec
  rw [matrixLegs_eq_flatMap _ _ _ 0 h2, h1]
  simp [List.range_eq_range']

/-- A concrete 2×2 response in which exactly one origin address equals
one destination address. -/
def overlapResp : MatrixResponse :=
  ⟨["A", "B"], ["B", "C"],
    [⟨[⟨11, 110⟩, ⟨12, 120⟩]⟩, ⟨[⟨21, 210⟩, ⟨22, 220⟩]⟩]⟩

/-- Witness for C6: on the concrete 2×2 response with one overlapping
address the code's legs equal the spec legs, and exactly 3 legs remain
(the self pair `B → B` is dropped). -/
theorem getRouteMatrixLegs_eq_spec_witness :
    overlapResp.Rows.length = overlapResp.OriginAddresses.length ∧
      (∀ row ∈ overlapResp.Rows,
        row.Elements.length = overlapResp.DestinationAddresses.length) ∧
      getRouteMatrixLegs overlapResp = routeMatrixSpec overlapResp ∧
      getRouteMatrixLegs overlapResp
        = [⟨"A", "B", 11, 110⟩, ⟨"A", "C", 12, 120⟩, ⟨"B", "C", 22, 220⟩] ∧
      (getRouteMatrixLegs overlapResp).length = 3 :=
  ⟨rfl, by decide, getRouteMatrixLegs_eq_spec overlapResp rfl (by decide),
    by decide, by decide⟩
